import Mathlib

/-!
Verification of the Magic-Notes note-taking widget.

The development shallowly embeds the two script variants of the repository
(`src/app.js` and `src/unnamed/part_000`): the `Note` class, the
localStorage-backed Note Store (`getNotes`, `saveNotes`, `saveNewNote`,
`deleteNote`, `deleteAllNotes`), the rendering filter
(`updateDisplayedNotes`), the delete-all-button visibility rule of
`part_000`, and the event handlers of both variants.

Host-platform functions used by the scripts are modelled explicitly:
`JSON.stringify` / `JSON.parse` as a character-level serializer and a
parser for the canonical grammar the serializer emits, string
`includes` / `toLowerCase` / `trim` at the character level (ASCII case
folding and the common whitespace set), `crypto.randomUUID` as a fresh-id
supply, and the synchronous `confirm` / `prompt` / `alert` dialogs as
explicit user-response parameters and emitted interaction events.
-/

namespace MagicNotes

/-- Whitespace characters removed by the JavaScript `String.prototype.trim`
(modelled on the common ASCII whitespace set). -/
def isJsWhitespace (c : Char) : Bool :=
  c = ' ' || c = '\t' || c = '\n' || c = '\x0d' || c = '\x0b' || c = '\x0c'

/-- Model of the JavaScript `String.prototype.trim`: strip whitespace from
both ends of the string. -/
def jsTrim (s : String) : String :=
  ⟨(((s.data.dropWhile isJsWhitespace).reverse.dropWhile isJsWhitespace).reverse)⟩

/-- Model of the JavaScript `String.prototype.toLowerCase` (ASCII case
folding, which is all the scenarios in the specification exercise). -/
def jsToLowerCase (s : String) : String :=
  ⟨s.data.map Char.toLower⟩

/-- Does the character list `hay` start with the character list `needle`? -/
def startsWith : List Char → List Char → Bool
  | _, [] => true
  | [], _ :: _ => false
  | c :: cs, p :: ps => c = p && startsWith cs ps

/-- Does the character list `hay` contain `needle` as a contiguous
substring?  Model of the JavaScript `String.prototype.includes`. -/
def containsSub (needle : List Char) : List Char → Bool
  | [] => startsWith [] needle
  | c :: rest => startsWith (c :: rest) needle || containsSub needle rest

/-- Model of the JavaScript expression `s.includes(target)`. -/
def jsIncludes (s target : String) : Bool :=
  containsSub target.data s.data

/-- The `Note` class of the scripts: a record with a uuid, a title, a
content body and a background color, all strings. -/
structure Note where
  uuid : String
  title : String
  content : String
  color : String
deriving DecidableEq

/-- The constructor `new Note(title, content, color)` assigns
`this.uuid = crypto.randomUUID()` and then the three given fields;
`crypto.randomUUID` is modelled as a fresh-id supply, so the uuid is an
explicit argument here. -/
def Note.make (uuid title content color : String) : Note :=
  { uuid := uuid, title := title, content := content, color := color }

/-- The model of `crypto.randomUUID`: the k-th uuid drawn from the
fresh-id supply. -/
def freshUuid (k : Nat) : String :=
  toString k

/-- Model of `Note.fromObj(obj)`, i.e. `Object.assign(new Note(), obj)`:
every parsed object carries all four fields (the canonical serialization
grammar guarantees this), so each field of the freshly constructed note
(including the freshly generated uuid) is overwritten with the
corresponding field of `obj`. -/
def Note.fromObj (obj : Note) : Note :=
  { uuid := obj.uuid, title := obj.title, content := obj.content,
    color := obj.color }

/-- Lower-case hex digit for a value below 16, as `JSON.stringify`
emits in \u escapes. -/
def hexDigit (n : Nat) : Char :=
  if n < 10 then Char.ofNat (48 + n) else Char.ofNat (87 + n)

/-- Value of a hex digit character, if it is one. -/
def hexVal (c : Char) : Option Nat :=
  if 48 ≤ c.toNat ∧ c.toNat ≤ 57 then some (c.toNat - 48)
  else if 97 ≤ c.toNat ∧ c.toNat ≤ 102 then some (c.toNat - 87)
  else if 65 ≤ c.toNat ∧ c.toNat ≤ 70 then some (c.toNat - 55)
  else none

/-- JSON string escaping of one character, as `JSON.stringify` performs
it: quote and backslash get a backslash escape, the control characters
with short forms use them, the remaining control characters use a
\u00XX escape, and every other character is emitted verbatim. -/
def escapeChar (c : Char) : List Char :=
  if c = '"' then ['\\', '"']
  else if c = '\\' then ['\\', '\\']
  else if c = '\x08' then ['\\', 'b']
  else if c = '\t' then ['\\', 't']
  else if c = '\n' then ['\\', 'n']
  else if c = '\x0c' then ['\\', 'f']
  else if c = '\x0d' then ['\\', 'r']
  else if c.toNat < 32 then
    ['\\', 'u', '0', '0', hexDigit (c.toNat / 16), hexDigit (c.toNat % 16)]
  else [c]

/-- JSON string escaping of a whole string body. -/
def escapeString (s : List Char) : List Char :=
  (s.map escapeChar).flatten

/-- A JSON string literal: quote, escaped body, quote. -/
def quoteString (s : String) : List Char :=
  '"' :: escapeString s.data ++ ['"']

/-- Serialization of one note as `JSON.stringify` emits it: an object
literal whose keys appear in the property-creation order of the `Note`
constructor (uuid, title, content, color). -/
def stringifyNote (n : Note) : List Char :=
  ("\x7b\"uuid\":").data ++ quoteString n.uuid ++
  (",\"title\":").data ++ quoteString n.title ++
  (",\"content\":").data ++ quoteString n.content ++
  (",\"color\":").data ++ quoteString n.color ++
  ("\x7d").data

/-- Comma-separated serializations of the notes of a list. -/
def stringifyNotesInner : List Note → List Char
  | [] => []
  | [n] => stringifyNote n
  | n :: m :: rest => stringifyNote n ++ ',' :: stringifyNotesInner (m :: rest)

/-- Model of `JSON.stringify(notes)` for an array of notes. -/
def stringifyNotes (l : List Note) : List Char :=
  '[' :: stringifyNotesInner l ++ [']']

/-- Parse a JSON string body after its opening quote, un-escaping as
`JSON.parse` does, up to and including the closing quote; returns the
decoded body and the remaining input. -/
def parseStringBody : List Char → Option (List Char × List Char)
  | [] => none
  | c :: rest =>
    if c = '"' then some ([], rest)
    else if c = '\\' then
      match rest with
      | [] => none
      | e :: rest1 =>
        if e = '"' then (parseStringBody rest1).map (fun p => ('"' :: p.1, p.2))
        else if e = '\\' then (parseStringBody rest1).map (fun p => ('\\' :: p.1, p.2))
        else if e = 'b' then (parseStringBody rest1).map (fun p => ('\x08' :: p.1, p.2))
        else if e = 't' then (parseStringBody rest1).map (fun p => ('\t' :: p.1, p.2))
        else if e = 'n' then (parseStringBody rest1).map (fun p => ('\n' :: p.1, p.2))
        else if e = 'f' then (parseStringBody rest1).map (fun p => ('\x0c' :: p.1, p.2))
        else if e = 'r' then (parseStringBody rest1).map (fun p => ('\x0d' :: p.1, p.2))
        else if e = 'u' then
          match rest1 with
          | a :: b :: c2 :: d :: rest2 =>
            match hexVal a, hexVal b, hexVal c2, hexVal d with
            | some va, some vb, some vc, some vd =>
              (parseStringBody rest2).map
                (fun p => (Char.ofNat (((va * 16 + vb) * 16 + vc) * 16 + vd) :: p.1, p.2))
            | _, _, _, _ => none
          | _ => none
        else none
    else (parseStringBody rest).map (fun p => (c :: p.1, p.2))

/-- Strip an expected literal from the front of the input. -/
def stripLit : List Char → List Char → Option (List Char)
  | [], cs => some cs
  | _ :: _, [] => none
  | p :: ps, c :: cs => if c = p then stripLit ps cs else none

/-- Parse one serialized note object of the canonical grammar that
`stringifyNote` emits; returns the note and the remaining input. -/
def parseNoteObj (cs : List Char) : Option (Note × List Char) := do
  let cs ← stripLit ("\x7b\"uuid\":\"").data cs
  let (u, cs) ← parseStringBody cs
  let cs ← stripLit (",\"title\":\"").data cs
  let (t, cs) ← parseStringBody cs
  let cs ← stripLit (",\"content\":\"").data cs
  let (co, cs) ← parseStringBody cs
  let cs ← stripLit (",\"color\":\"").data cs
  let (cl, cs) ← parseStringBody cs
  let cs ← stripLit ("\x7d").data cs
  some (⟨⟨u⟩, ⟨t⟩, ⟨co⟩, ⟨cl⟩⟩, cs)

/-- Parse a non-empty comma-separated sequence of note objects followed
by a closing bracket; `fuel` bounds the number of elements. -/
def parseNotesAux : Nat → List Char → Option (List Note × List Char)
  | 0, _ => none
  | fuel + 1, cs => do
    let (n, cs1) ← parseNoteObj cs
    match cs1 with
    | ',' :: cs2 => do
      let (ns, rest) ← parseNotesAux fuel cs2
      some (n :: ns, rest)
    | ']' :: rest => some ([n], rest)
    | _ => none

/-- Model of `JSON.parse` restricted to the canonical note-array grammar
emitted by `JSON.stringify` (which is the only data the scripts ever
store); any other input is a parse failure (`JSON.parse` throwing). -/
def parseNotes (cs : List Char) : Option (List Note) :=
  match cs with
  | '[' :: cs1 =>
    if cs1 = [']'] then some []
    else
      match parseNotesAux (cs1.length + 1) cs1 with
      | some (ns, []) => some ns
      | _ => none
  | _ => none

/-- The localStorage slot under the `notes` key: `none` models a key
that was never set (`getItem` returning `null`), `some s` a stored
string value. -/
def Storage := Option String
deriving DecidableEq

/-- A store in which nothing was ever saved. -/
def emptyStorage : Storage := none

/-- Model of `getNotes()`: read the blob (the JavaScript
`getItem(...) || "[]"` falls back to the literal `"[]"` both when the
item is absent and when it is the empty string, since both are falsy),
parse it, and convert each parsed object with `Note.fromObj`.  `none`
models `JSON.parse` throwing on a malformed blob. -/
def getNotes (s : Storage) : Option (List Note) :=
  let jsonObjs : String :=
    match s with
    | none => "[]"
    | some str => if str = "" then "[]" else str
  (parseNotes jsonObjs.data).map (fun objs => objs.map Note.fromObj)

/-- Model of `saveNotes(notes)`: overwrite the slot with
`JSON.stringify(notes)`. -/
def saveNotes (notes : List Note) (_ : Storage) : Storage :=
  some ⟨stringifyNotes notes⟩

/-- Model of `saveNewNote(note)`: read the current collection, push the
new note at the end, write back. -/
def saveNewNote (n : Note) (s : Storage) : Option Storage :=
  (getNotes s).map (fun notes => saveNotes (notes ++ [n]) s)

/-- Model of the storage effect of `deleteNote(uuid)`: read, keep the
notes whose uuid differs, write back. -/
def deleteNote (u : String) (s : Storage) : Option Storage :=
  (getNotes s).map (fun notes => saveNotes (notes.filter (fun n => n.uuid != u)) s)

/-- Model of the storage effect of `deleteAllNotes()`. -/
def deleteAllNotes (s : Storage) : Storage :=
  saveNotes [] s

/-- The filter predicate of `updateDisplayedNotes`: the note is kept
when its title or its content contains the lower-cased search text.
Note that the source lower-cases only the search text, not the note
fields. -/
def noteMatches (searchText : String) (n : Note) : Bool :=
  jsIncludes n.title (jsToLowerCase searchText) ||
    jsIncludes n.content (jsToLowerCase searchText)

/-- The notes kept by the display filter, in stored order. -/
def matchedNotes (searchText : String) (notes : List Note) : List Note :=
  notes.filter (noteMatches searchText)

/-- The matching policy the specification states: lower-case both the
search text and the note fields before the substring test. -/
def specNoteMatches (searchText : String) (n : Note) : Bool :=
  jsIncludes (jsToLowerCase n.title) (jsToLowerCase searchText) ||
    jsIncludes (jsToLowerCase n.content) (jsToLowerCase searchText)

/-- What the notes container shows after a render: either the fixed
"Nothing to show!" placeholder, or the cards of the matched notes in
order. -/
inductive DisplayedNotes where
  | placeholder : DisplayedNotes
  | cards : List Note → DisplayedNotes
deriving DecidableEq

/-- The rendering decision of `updateDisplayedNotes` on an already read
collection: show the placeholder exactly when `matchedNotes.length === 0`,
otherwise the cards of the matched notes in order. -/
def renderList (searchText : String) (notes : List Note) : DisplayedNotes :=
  let matched := matchedNotes searchText notes
  if matched.length = 0 then DisplayedNotes.placeholder
  else DisplayedNotes.cards matched

/-- Model of `updateDisplayedNotes()` with the given search-field value:
read the store, filter, and show the placeholder exactly when no note
matched. -/
def updateDisplayedNotes (searchText : String) (s : Storage) :
    Option DisplayedNotes :=
  (getNotes s).map (renderList searchText)

/-- Model of `updateDeleteAllNotesButtonVisibility()` of `part_000`:
the button is hidden exactly when `getNotes().length === 0`; the result
is the visibility of the delete-all button. -/
def updateVisibility (s : Storage) : Option Bool :=
  (getNotes s).map (fun notes => !(notes.length == 0))

/-- A Note Store operation: `append` (the store effect of
`saveNewNote`) or `removeById` (the store effect of `deleteNote`). -/
inductive StoreOp where
  | append : Note → StoreOp
  | removeById : String → StoreOp

/-- Apply one store operation to the storage slot. -/
def applyOp (s : Storage) : StoreOp → Option Storage
  | StoreOp.append n => saveNewNote n s
  | StoreOp.removeById u => deleteNote u s

/-- Run a sequence of store operations on the storage slot. -/
def runOps (s : Storage) : List StoreOp → Option Storage
  | [] => some s
  | op :: rest => (applyOp s op).bind (fun s1 => runOps s1 rest)

/-- The effect of one store operation on the note collection itself. -/
def applyOpList (l : List Note) : StoreOp → List Note
  | StoreOp.append n => l ++ [n]
  | StoreOp.removeById u => l.filter (fun n => n.uuid != u)

/-- The effect of a sequence of store operations on the collection. -/
def runOpsList (l : List Note) : List StoreOp → List Note
  | [] => l
  | op :: rest => runOpsList (applyOpList l op) rest

/-- Is a note with the given uuid removed by some operation of the
sequence? -/
def removedIn (u : String) : List StoreOp → Bool
  | [] => false
  | StoreOp.append _ :: rest => removedIn u rest
  | StoreOp.removeById v :: rest => u == v || removedIn u rest

/-- The surviving notes of an operation sequence started from an empty
store: the appended notes that no later operation removes, in their
insertion order. -/
def survivors : List StoreOp → List Note
  | [] => []
  | StoreOp.append n :: rest =>
    (if removedIn n.uuid rest then [] else [n]) ++ survivors rest
  | StoreOp.removeById _ :: rest => survivors rest

/-- All notes appended by the operation sequence, in order. -/
def appendedNotes : List StoreOp → List Note
  | [] => []
  | StoreOp.append n :: rest => n :: appendedNotes rest
  | StoreOp.removeById _ :: rest => appendedNotes rest

/-- The user-interface state of the `part_000` page: the storage slot,
the values of the search, title, content and color controls, the
disabled flag of the add button, the visibility of the delete-all
button, the rendered notes container, and the fresh-uuid counter
modelling `crypto.randomUUID`. -/
structure UIState where
  storage : Storage
  searchText : String
  titleInput : String
  contentInput : String
  colorSel : String
  addDisabled : Bool
  deleteAllVisible : Bool
  display : DisplayedNotes
  nextUuid : Nat
deriving DecidableEq

/-- A user-interface event of the `part_000` page.  Typing into the
title input and picking a color have no registered listener in the
source, so those events only update the control's value; the confirm
dialogs are synchronous, so the user's response travels with the event. -/
inductive UIEvent where
  | contentInput : String → UIEvent
  | titleInput : String → UIEvent
  | colorSelect : String → UIEvent
  | searchInput : String → UIEvent
  | addClick : UIEvent
  | deleteNoteLinkClick : String → Bool → UIEvent
  | deleteAllClick : Bool → UIEvent

/-- The `input` listener of the content text area: store the value and
disable the add button exactly when the trimmed value is empty. -/
def handleContentInput (st : UIState) (text : String) : UIState :=
  { st with contentInput := text,
            addDisabled := (jsTrim text).data.length == 0 }

/-- The `input` listener of the search field: store the value and
re-render. -/
def handleSearchInput (st : UIState) (text : String) : Option UIState :=
  (updateDisplayedNotes text st.storage).map
    (fun d => { st with searchText := text, display := d })

/-- The `click` listener of the add button.  A disabled button receives
no click, so the event is ignored while the button is disabled.
Otherwise, as in the source: disable the button, default the trimmed
title to "Untitled" when it is empty (the JavaScript
`value.trim() || "Untitled"`), build the note with a fresh uuid, save
it, clear the content area, re-render, and recompute the delete-all
button visibility. -/
def handleAddClick (st : UIState) : Option UIState :=
  if st.addDisabled then some st
  else
    let title := if jsTrim st.titleInput = "" then "Untitled"
                 else jsTrim st.titleInput
    let note := Note.make (freshUuid st.nextUuid) title st.contentInput st.colorSel
    (saveNewNote note st.storage).bind (fun storage1 =>
      (updateDisplayedNotes st.searchText storage1).bind (fun d =>
        (updateVisibility storage1).map (fun vis =>
          { st with addDisabled := true, storage := storage1,
                    contentInput := "", display := d,
                    deleteAllVisible := vis,
                    nextUuid := st.nextUuid + 1 })))

/-- Model of `handleDeleteNoteLinkClick` of `part_000`: ask for
confirmation; on an affirmative response delete the note (which
re-renders) and recompute the delete-all button visibility; on a
negative response change nothing. -/
def handleDeleteNoteLink (st : UIState) (u : String) (resp : Bool) :
    Option UIState :=
  if resp then
    (deleteNote u st.storage).bind (fun storage1 =>
      (updateDisplayedNotes st.searchText storage1).bind (fun d =>
        (updateVisibility storage1).map (fun vis =>
          { st with storage := storage1, display := d,
                    deleteAllVisible := vis })))
  else some st

/-- Model of the delete-all click listener of `part_000`: ask for
confirmation; on an affirmative response clear the collection (which
re-renders) and recompute the delete-all button visibility; on a
negative response change nothing. -/
def handleDeleteAllClick (st : UIState) (resp : Bool) : Option UIState :=
  if resp then
    let storage1 := deleteAllNotes st.storage
    (updateDisplayedNotes st.searchText storage1).bind (fun d =>
      (updateVisibility storage1).map (fun vis =>
        { st with storage := storage1, display := d,
                  deleteAllVisible := vis }))
  else some st

/-- One step of the `part_000` user interface. -/
def uiStep (st : UIState) : UIEvent → Option UIState
  | UIEvent.contentInput text => some (handleContentInput st text)
  | UIEvent.titleInput text => some { st with titleInput := text }
  | UIEvent.colorSelect c => some { st with colorSel := c }
  | UIEvent.searchInput text => handleSearchInput st text
  | UIEvent.addClick => handleAddClick st
  | UIEvent.deleteNoteLinkClick u resp => handleDeleteNoteLink st u resp
  | UIEvent.deleteAllClick resp => handleDeleteAllClick st resp

/-- Run a sequence of user-interface events. -/
def runUI : Option UIState → List UIEvent → Option UIState
  | o, [] => o
  | o, e :: rest => runUI (o.bind (fun st => uiStep st e)) rest

/-- The initial page load of `part_000`: the script runs
`updateDisplayedNotes()` and `updateDeleteAllNotesButtonVisibility()`
on the stored state.  Modelled from the spec: the markup is not part of
the sources, so the controls start empty, the color selector starts at
the neutral default, and the add control starts disabled (the spec's
add-control state machine: enabled iff the trimmed content is
non-empty). -/
def uiInit (s0 : Storage) : Option UIState :=
  (updateDisplayedNotes "" s0).bind (fun d =>
    (updateVisibility s0).map (fun vis =>
      { storage := s0, searchText := "", titleInput := "",
        contentInput := "", colorSel := "white", addDisabled := true,
        deleteAllVisible := vis, display := d, nextUuid := 0 }))

/-- An observable interaction of a destructive action: a confirm
dialog, a prompt dialog, or an alert. -/
inductive UAEvent where
  | confirmAsked : String → UAEvent
  | promptAsked : String → UAEvent
  | alerted : String → UAEvent
deriving DecidableEq

/-- The storage effect and interaction trace of
`handleDeleteNoteLinkClick` of `part_000`. -/
def part000DeleteOneAction (resp : Bool) (u : String) (s : Storage) :
    Option (Storage × List UAEvent) :=
  let events := [UAEvent.confirmAsked "Are you sure you want to delete this note?"]
  if resp then (deleteNote u s).map (fun s1 => (s1, events))
  else some (s, events)

/-- The storage effect and interaction trace of the delete-all click
listener of `part_000`. -/
def part000DeleteAllAction (resp : Bool) (s : Storage) :
    Storage × List UAEvent :=
  let events := [UAEvent.confirmAsked "Are you sure you want to delete all your notes?"]
  if resp then (deleteAllNotes s, events) else (s, events)

/-- The storage effect and interaction trace of the delete button of a
note card in `app.js`: its `onclick` calls `deleteNote(this.id)`
directly, with no confirmation dialog of any kind. -/
def appJsDeleteOneAction (u : String) (s : Storage) :
    Option (Storage × List UAEvent) :=
  (deleteNote u s).map (fun s1 => (s1, ([] : List UAEvent)))

/-- The storage effect and interaction trace of the delete-all click
listener of `app.js`: a prompt asks the user to type the word delete;
any other response (including cancelling, which makes `prompt` return
`null`, modelled as `none`) leaves the store unchanged and shows an
alert. -/
def appJsDeleteAllAction (resp : Option String) (s : Storage) :
    Storage × List UAEvent :=
  let asked := UAEvent.promptAsked
    "Alert! You are about to remove all your notes. Type in \"delete\" to confirm."
  if resp = some "delete" then (deleteAllNotes s, [asked])
  else (s, [asked, UAEvent.alerted "Couldn\x27t proceed. WARNING: case-sensitive"])

/-- The state invariant of the `part_000` page: the stored blob parses,
the delete-all button is visible exactly when the collection is
non-empty, and the add button is disabled exactly when the trimmed
content input is empty. -/
def UIInv (st : UIState) : Prop :=
  (∃ l, getNotes st.storage = some l ∧
    st.deleteAllVisible = !(l.length == 0)) ∧
  st.addDisabled = ((jsTrim st.contentInput).data.length == 0)

/-!
Helper lemmas: the serialization round trip and the abstract behaviour
of the Note Store.
-/

theorem hexVal_hexDigit (n : Nat) (h : n < 16) : hexVal (hexDigit n) = some n := by
  have hall : ∀ m, m < 16 → hexVal (hexDigit m) = some m := by decide
  exact hall n h

theorem parseStringBody_escapeChar (c : Char) (tail : List Char) :
    parseStringBody (escapeChar c ++ tail) =
      (parseStringBody tail).map (fun p => (c :: p.1, p.2)) := by
  rw [escapeChar]
  split_ifs with h1 h2 h3 h4 h5 h6 h7 h8
  · subst h1; rw [parseStringBody.eq_def]; simp
  · subst h2; rw [parseStringBody.eq_def]; simp
  · subst h3; rw [parseStringBody.eq_def]; simp
  · subst h4; rw [parseStringBody.eq_def]; simp
  · subst h5; rw [parseStringBody.eq_def]; simp
  · subst h6; rw [parseStringBody.eq_def]; simp
  · subst h7; rw [parseStringBody.eq_def]; simp
  · have hvh := hexVal_hexDigit (c.toNat / 16) (by omega)
    have hvl := hexVal_hexDigit (c.toNat % 16) (by omega)
    have h0 : hexVal '0' = some 0 := by decide
    have hchar : Char.ofNat (c.toNat / 16 * 16 + c.toNat % 16) = c := by
      have harith : c.toNat / 16 * 16 + c.toNat % 16 = c.toNat := by omega
      rw [harith, Char.ofNat_toNat]
    rw [parseStringBody.eq_def]
    simp [h0, hvh, hvl, hchar]
  · rw [parseStringBody.eq_def]; simp [h1, h2]

theorem parseStringBody_escape (s tail : List Char) :
    parseStringBody (escapeString s ++ '"' :: tail) = some (s, tail) := by
  induction s with
  | nil =>
    rw [escapeString]
    simp only [List.map_nil, List.flatten_nil, List.nil_append]
    rw [parseStringBody.eq_def]; simp
  | cons c s ih =>
    have hstream : escapeString (c :: s) ++ '"' :: tail
        = escapeChar c ++ (escapeString s ++ '"' :: tail) := by
      simp [escapeString, List.append_assoc]
    rw [hstream, parseStringBody_escapeChar, ih]
    rfl

theorem stripLit_append (p cs : List Char) : stripLit p (p ++ cs) = some cs := by
  induction p with
  | nil => rfl
  | cons c p ih => simp [stripLit, ih]


theorem parseNoteObj_stringify (n : Note) (rest : List Char) :
    parseNoteObj (stringifyNote n ++ rest) = some (n, rest) := by
  obtain ⟨⟨u⟩, ⟨t⟩, ⟨co⟩, ⟨cl⟩⟩ := n
  have hstream : stringifyNote ⟨⟨u⟩, ⟨t⟩, ⟨co⟩, ⟨cl⟩⟩ ++ rest =
      ("\x7b\"uuid\":\"").data ++ (escapeString u ++ '"' ::
      ((",\"title\":\"").data ++ (escapeString t ++ '"' ::
      ((",\"content\":\"").data ++ (escapeString co ++ '"' ::
      ((",\"color\":\"").data ++ (escapeString cl ++ '"' ::
      (("\x7d").data ++ rest)))))))) := by
    simp [stringifyNote, quoteString, List.append_assoc]
  rw [hstream]
  simp [parseNoteObj, stripLit, parseStringBody_escape]


theorem parseNotesAux_stringify (l : List Note) (hne : l ≠ []) :
    ∀ (fuel : Nat), l.length ≤ fuel → ∀ (rest : List Char),
      parseNotesAux fuel (stringifyNotesInner l ++ ']' :: rest) = some (l, rest) := by
  induction l with
  | nil => exact absurd rfl hne
  | cons n l ih =>
    intro fuel hfuel rest
    cases fuel with
    | zero => simp at hfuel
    | succ fuel =>
      cases l with
      | nil =>
        simp [stringifyNotesInner, parseNotesAux, parseNoteObj_stringify]
      | cons m l2 =>
        have hstream : stringifyNotesInner (n :: m :: l2) ++ ']' :: rest
            = stringifyNote n ++ (',' :: (stringifyNotesInner (m :: l2) ++ ']' :: rest)) := by
          simp [stringifyNotesInner, List.append_assoc]
        have hle : (m :: l2).length ≤ fuel := by
          simp only [List.length_cons] at hfuel ⊢
          omega
        have hrec := ih (by simp) fuel hle rest
        rw [hstream]
        simp [parseNotesAux, parseNoteObj_stringify, hrec]

theorem stringifyNote_length (n : Note) : 1 ≤ (stringifyNote n).length := by
  simp [stringifyNote, quoteString]

theorem stringifyNotesInner_length (l : List Note) :
    l.length ≤ (stringifyNotesInner l).length := by
  induction l with
  | nil => simp [stringifyNotesInner]
  | cons n l ih =>
    cases l with
    | nil =>
      have h1 := stringifyNote_length n
      rw [stringifyNotesInner]
      simp only [List.length_cons, List.length_nil]
      omega
    | cons m l2 =>
      have h1 := stringifyNote_length n
      rw [stringifyNotesInner]
      simp only [List.length_append, List.length_cons] at ih ⊢
      omega

theorem parseNotes_stringify (l : List Note) :
    parseNotes (stringifyNotes l) = some l := by
  cases l with
  | nil => rfl
  | cons n l2 =>
    have hlen := stringifyNotesInner_length (n :: l2)
    have hne : ¬(stringifyNotesInner (n :: l2) ++ [']'] = [']']) := by
      intro h
      have : (stringifyNotesInner (n :: l2) ++ [']']).length = 1 := by rw [h]; rfl
      simp only [List.length_append, List.length_cons, List.length_nil] at this
      simp only [List.length_cons] at hlen
      omega
    have hfuel : (n :: l2).length ≤ (stringifyNotesInner (n :: l2)).length + 1 + 1 := by
      simp only [List.length_cons] at hlen ⊢
      omega
    have haux := parseNotesAux_stringify (n :: l2) (by simp)
      ((stringifyNotesInner (n :: l2)).length + 1 + 1) hfuel []
    have hrw : stringifyNotesInner (n :: l2) ++ ']' :: ([] : List Char)
        = stringifyNotesInner (n :: l2) ++ [']'] := rfl
    rw [hrw] at haux
    rw [stringifyNotes, parseNotes.eq_def]
    simp [hne, haux]

theorem fromObj_eq (n : Note) : Note.fromObj n = n := rfl

theorem map_fromObj (l : List Note) : l.map Note.fromObj = l := by
  induction l with
  | nil => rfl
  | cons a l ih => simp [fromObj_eq, ih]

theorem getNotes_saveNotes (l : List Note) (s : Storage) :
    getNotes (saveNotes l s) = some l := by
  have hne : ¬(String.mk (stringifyNotes l) = "") := by
    intro h
    have : stringifyNotes l = [] := by
      have := congrArg String.data h
      simpa using this
    simp [stringifyNotes] at this
  simp only [getNotes, saveNotes]
  rw [if_neg hne]
  have hdata : (String.mk (stringifyNotes l)).data = stringifyNotes l := rfl
  rw [hdata, parseNotes_stringify]
  simp [map_fromObj]

theorem getNotes_empty : getNotes emptyStorage = some [] := rfl

theorem updateDisplayedNotes_saveNotes (q : String) (l : List Note) (s : Storage) :
    updateDisplayedNotes q (saveNotes l s) = some (renderList q l) := by
  rw [updateDisplayedNotes, getNotes_saveNotes]; rfl

theorem updateVisibility_saveNotes (l : List Note) (s : Storage) :
    updateVisibility (saveNotes l s) = some (!(l.length == 0)) := by
  rw [updateVisibility, getNotes_saveNotes]; rfl

theorem deleteNote_eq (u : String) (s : Storage) (l : List Note)
    (h : getNotes s = some l) :
    deleteNote u s = some (saveNotes (l.filter (fun n => n.uuid != u)) s) := by
  rw [deleteNote, h]; rfl

theorem saveNewNote_eq (n : Note) (s : Storage) (l : List Note)
    (h : getNotes s = some l) :
    saveNewNote n s = some (saveNotes (l ++ [n]) s) := by
  rw [saveNewNote, h]; rfl

theorem runOpsList_eq (ops : List StoreOp) :
    ∀ l : List Note, runOpsList l ops
      = l.filter (fun n => !removedIn n.uuid ops) ++ survivors ops := by
  induction ops with
  | nil => intro l; simp [runOpsList, survivors, removedIn]
  | cons op rest ih =>
    intro l
    cases op with
    | append n =>
      rw [runOpsList, applyOpList, ih]
      cases hrem : removedIn n.uuid rest <;>
        simp [removedIn, survivors, hrem, List.filter_append, List.filter_cons]
    | removeById u =>
      rw [runOpsList, applyOpList, ih, List.filter_filter]
      rw [survivors]
      congr 1
      apply List.filter_congr
      intro a _
      simp only [removedIn]
      cases h1 : a.uuid == u <;> cases h2 : removedIn a.uuid rest <;>
        simp [bne, h1, h2]

theorem survivors_sublist (ops : List StoreOp) :
    List.Sublist (survivors ops) (appendedNotes ops) := by
  induction ops with
  | nil => simp [survivors, appendedNotes]
  | cons op rest ih =>
    cases op with
    | append n =>
      rw [survivors, appendedNotes]
      cases hrem : removedIn n.uuid rest
      · simpa [hrem] using ih.cons₂ n
      · simpa [hrem] using ih.cons n
    | removeById u =>
      rw [survivors, appendedNotes]
      exact ih

theorem runOps_getNotes (ops : List StoreOp) :
    ∀ (s : Storage) (l : List Note), getNotes s = some l →
      ∃ s1, runOps s ops = some s1 ∧ getNotes s1 = some (runOpsList l ops) := by
  induction ops with
  | nil =>
    intro s l h
    exact ⟨s, rfl, by rw [h, runOpsList]⟩
  | cons op rest ih =>
    intro s l h
    cases op with
    | append n =>
      obtain ⟨s1, hrun, hget⟩ :=
        ih (saveNotes (l ++ [n]) s) (l ++ [n]) (getNotes_saveNotes _ _)
      refine ⟨s1, ?_, ?_⟩
      · rw [runOps, applyOp, saveNewNote_eq n s l h]
        simpa using hrun
      · rw [hget, runOpsList, applyOpList]
    | removeById u =>
      obtain ⟨s1, hrun, hget⟩ :=
        ih (saveNotes (l.filter (fun n => n.uuid != u)) s)
          (l.filter (fun n => n.uuid != u)) (getNotes_saveNotes _ _)
      refine ⟨s1, ?_, ?_⟩
      · rw [runOps, applyOp, deleteNote_eq u s l h]
        simpa using hrun
      · rw [hget, runOpsList, applyOpList]

theorem containsSub_nil (hay : List Char) : containsSub [] hay = true := by
  cases hay with
  | nil => rfl
  | cons c rest => simp [containsSub, startsWith]

theorem noteMatches_empty (n : Note) : noteMatches "" n = true := by
  have h : jsToLowerCase "" = "" := rfl
  simp [noteMatches, h, jsIncludes, containsSub_nil]

/-- C1: for every sequence of append and removeById operations starting
from an empty store, listAll afterwards returns exactly the surviving
notes (those appended and not subsequently removed), in their original
insertion order; and, under the modelling assumption that
`crypto.randomUUID` gave the appended notes pairwise distinct uuids, no
two returned notes share an id. -/
theorem c1_append_remove_sequences (ops : List StoreOp)
    (h : ((appendedNotes ops).map Note.uuid).Nodup) :
    ∃ s1, runOps emptyStorage ops = some s1 ∧
      getNotes s1 = some (survivors ops) ∧
      ((survivors ops).map Note.uuid).Nodup := by
  obtain ⟨s1, hrun, hget⟩ := runOps_getNotes ops emptyStorage [] getNotes_empty
  refine ⟨s1, hrun, ?_, ?_⟩
  · rw [hget, runOpsList_eq]
    simp
  · exact h.sublist ((survivors_sublist ops).map Note.uuid)

set_option maxRecDepth 1000000 in
/-- Witness for C1 at a concrete operation sequence. -/
theorem c1_append_remove_sequences_witness :
    ∃ s1, runOps emptyStorage
        [StoreOp.append (Note.make "u-1" "A" "a" "white"),
         StoreOp.append (Note.make "u-2" "B" "b" "red"),
         StoreOp.removeById "u-1"] = some s1 ∧
      getNotes s1 = some (survivors
        [StoreOp.append (Note.make "u-1" "A" "a" "white"),
         StoreOp.append (Note.make "u-2" "B" "b" "red"),
         StoreOp.removeById "u-1"]) ∧
      ((survivors
        [StoreOp.append (Note.make "u-1" "A" "a" "white"),
         StoreOp.append (Note.make "u-2" "B" "b" "red"),
         StoreOp.removeById "u-1"]).map Note.uuid).Nodup :=
  c1_append_remove_sequences _ (by decide)

/-- C3: replaceAll (saveNotes) followed by listAll (getNotes) returns
the input collection identically, field by field and in order: the
serialization round trip is the identity on note collections. -/
theorem c3_replaceAll_listAll_roundtrip (notes : List Note) (s : Storage) :
    getNotes (saveNotes notes s) = some notes :=
  getNotes_saveNotes notes s

/-- C5: removeById removes exactly the notes whose id equals the given
one and keeps the rest in order; when no note carries the id (in
particular on a second call right after a first) the collection is
unchanged and the call succeeds rather than erroring. -/
theorem c5_removeById_exact (u : String) (s : Storage) (l : List Note)
    (h : getNotes s = some l) :
    ∃ s1, deleteNote u s = some s1 ∧
      getNotes s1 = some (l.filter (fun n => n.uuid != u)) ∧
      ((∀ n ∈ l, n.uuid ≠ u) → getNotes s1 = some l) ∧
      ∃ s2, deleteNote u s1 = some s2 ∧
        getNotes s2 = some (l.filter (fun n => n.uuid != u)) := by
  refine ⟨saveNotes (l.filter (fun n => n.uuid != u)) s, deleteNote_eq u s l h,
    getNotes_saveNotes _ _, ?_, ?_⟩
  · intro hnone
    have hfil : l.filter (fun n => n.uuid != u) = l :=
      List.filter_eq_self.mpr (fun a ha => bne_iff_ne.mpr (hnone a ha))
    rw [hfil]
    exact getNotes_saveNotes _ _
  · refine ⟨saveNotes ((l.filter (fun n => n.uuid != u)).filter
        (fun n => n.uuid != u)) (saveNotes (l.filter (fun n => n.uuid != u)) s),
      deleteNote_eq u _ _ (getNotes_saveNotes _ _), ?_⟩
    rw [getNotes_saveNotes]
    simp [List.filter_filter]

set_option maxRecDepth 1000000 in
/-- Witness for C5: removing an id that is not present. -/
theorem c5_removeById_exact_witness :
    ∃ s1, deleteNote "zz" (saveNotes [Note.make "u-1" "A" "a" "white"] emptyStorage)
        = some s1 ∧
      getNotes s1 = some ([Note.make "u-1" "A" "a" "white"].filter
        (fun n => n.uuid != "zz")) ∧
      ((∀ n ∈ [Note.make "u-1" "A" "a" "white"], n.uuid ≠ "zz") →
        getNotes s1 = some [Note.make "u-1" "A" "a" "white"]) ∧
      ∃ s2, deleteNote "zz" s1 = some s2 ∧
        getNotes s2 = some ([Note.make "u-1" "A" "a" "white"].filter
          (fun n => n.uuid != "zz")) :=
  c5_removeById_exact "zz" _ [Note.make "u-1" "A" "a" "white"] (by decide)

/-- C7: listAll on a store whose notes key was never set returns the
empty collection: getItem yields null, the falsy fallback substitutes
the literal empty array, and the parse succeeds (the result is `some`,
i.e. no exception is thrown). -/
theorem c7_absent_blob_is_empty : getNotes emptyStorage = some [] := rfl

/-- C10: a stored empty-string blob is treated exactly like an absent
blob, because the JavaScript falsiness check of `getItem(...) || "[]"`
also replaces the empty string by the empty-array literal. -/
theorem c10_empty_string_blob :
    getNotes (some "") = some [] ∧ getNotes (some "") = getNotes emptyStorage :=
  ⟨rfl, rfl⟩

set_option maxRecDepth 1000000 in
/-- C2 fails on the code: the filter lower-cases only the search text
and tests it against the raw note fields, so a note titled Milk is not
matched by the search text MILK even though the case-insensitive policy
of the claim says it must match. -/
theorem c2_case_fold_divergence :
    specNoteMatches "MILK" (Note.make "u-1" "Milk" "x" "white") = true ∧
    noteMatches "MILK" (Note.make "u-1" "Milk" "x" "white") = false ∧
    updateDisplayedNotes "MILK"
        (saveNotes [Note.make "u-1" "Milk" "x" "white"] emptyStorage)
      = some DisplayedNotes.placeholder := by
  refine ⟨by decide, by decide, ?_⟩
  rw [updateDisplayedNotes_saveNotes]
  decide

/-- C8: the empty search text matches every stored note, and whenever
no note matches the search text the render shows the fixed placeholder
instead of an empty list. -/
theorem c8_empty_query_and_placeholder (s : Storage) (l : List Note)
    (h : getNotes s = some l) :
    matchedNotes "" l = l ∧
    ∀ q, matchedNotes q l = [] →
      updateDisplayedNotes q s = some DisplayedNotes.placeholder := by
  constructor
  · exact List.filter_eq_self.mpr (fun a _ => noteMatches_empty a)
  · intro q hq
    rw [updateDisplayedNotes, h]
    simp [renderList, hq]

set_option maxRecDepth 1000000 in
/-- Witness for C8 on a one-note store. -/
theorem c8_empty_query_and_placeholder_witness :
    matchedNotes "" [Note.make "u-1" "Groceries" "milk, eggs" "yellow"]
        = [Note.make "u-1" "Groceries" "milk, eggs" "yellow"] ∧
    updateDisplayedNotes "bread"
        (saveNotes [Note.make "u-1" "Groceries" "milk, eggs" "yellow"] emptyStorage)
      = some DisplayedNotes.placeholder :=
  ⟨(c8_empty_query_and_placeholder
      (saveNotes [Note.make "u-1" "Groceries" "milk, eggs" "yellow"] emptyStorage)
      [Note.make "u-1" "Groceries" "milk, eggs" "yellow"] (by decide)).1,
   (c8_empty_query_and_placeholder
      (saveNotes [Note.make "u-1" "Groceries" "milk, eggs" "yellow"] emptyStorage)
      [Note.make "u-1" "Groceries" "milk, eggs" "yellow"] (by decide)).2
     "bread" (by decide)⟩

theorem handleAddClick_disabled (st : UIState) (hd : st.addDisabled = true) :
    handleAddClick st = some st := by
  simp [handleAddClick, hd]

theorem handleAddClick_enabled (st : UIState) (l : List Note)
    (hl : getNotes st.storage = some l) (hd : st.addDisabled = false) :
    handleAddClick st = some
      { st with
        addDisabled := true,
        storage := saveNotes (l ++ [Note.make (freshUuid st.nextUuid)
          (if jsTrim st.titleInput = "" then "Untitled" else jsTrim st.titleInput)
          st.contentInput st.colorSel]) st.storage,
        contentInput := "",
        display := renderList st.searchText (l ++ [Note.make (freshUuid st.nextUuid)
          (if jsTrim st.titleInput = "" then "Untitled" else jsTrim st.titleInput)
          st.contentInput st.colorSel]),
        deleteAllVisible := !((l ++ [Note.make (freshUuid st.nextUuid)
          (if jsTrim st.titleInput = "" then "Untitled" else jsTrim st.titleInput)
          st.contentInput st.colorSel]).length == 0),
        nextUuid := st.nextUuid + 1 } := by
  rw [handleAddClick, if_neg (by simp [hd])]
  dsimp only
  rw [saveNewNote_eq _ _ _ hl, Option.some_bind, updateDisplayedNotes_saveNotes,
    Option.some_bind, updateVisibility_saveNotes, Option.map_some']

theorem handleDeleteNoteLink_decline (st : UIState) (u : String) :
    handleDeleteNoteLink st u false = some st := rfl

theorem handleDeleteNoteLink_accept (st : UIState) (u : String) (l : List Note)
    (hl : getNotes st.storage = some l) :
    handleDeleteNoteLink st u true = some
      { st with
        storage := saveNotes (l.filter (fun n => n.uuid != u)) st.storage,
        display := renderList st.searchText (l.filter (fun n => n.uuid != u)),
        deleteAllVisible := !((l.filter (fun n => n.uuid != u)).length == 0) } := by
  rw [handleDeleteNoteLink, if_pos rfl]
  rw [deleteNote_eq _ _ _ hl, Option.some_bind, updateDisplayedNotes_saveNotes,
    Option.some_bind, updateVisibility_saveNotes, Option.map_some']

theorem handleDeleteAllClick_decline (st : UIState) :
    handleDeleteAllClick st false = some st := rfl

theorem handleDeleteAllClick_accept (st : UIState) :
    handleDeleteAllClick st true = some
      { st with
        storage := saveNotes [] st.storage,
        display := renderList st.searchText [],
        deleteAllVisible := false } := by
  rw [handleDeleteAllClick, if_pos rfl]
  dsimp only
  rw [deleteAllNotes, updateDisplayedNotes_saveNotes, Option.some_bind,
    updateVisibility_saveNotes, Option.map_some']
  rfl

theorem uiInit_eq (s0 : Storage) (l : List Note) (h : getNotes s0 = some l) :
    uiInit s0 = some
      { storage := s0, searchText := "", titleInput := "", contentInput := "",
        colorSel := "white", addDisabled := true,
        deleteAllVisible := !(l.length == 0),
        display := renderList "" l, nextUuid := 0 } := by
  rw [uiInit, updateDisplayedNotes, h, updateVisibility, h]
  rfl

theorem uiStep_inv (st st1 : UIState) (e : UIEvent)
    (hinv : UIInv st) (hstep : uiStep st e = some st1) : UIInv st1 := by
  obtain ⟨⟨l, hl, hvis⟩, hadd⟩ := hinv
  cases e with
  | contentInput t =>
    simp only [uiStep, Option.some.injEq] at hstep
    subst hstep
    exact ⟨⟨l, hl, hvis⟩, rfl⟩
  | titleInput t =>
    simp only [uiStep, Option.some.injEq] at hstep
    subst hstep
    exact ⟨⟨l, hl, hvis⟩, hadd⟩
  | colorSelect c =>
    simp only [uiStep, Option.some.injEq] at hstep
    subst hstep
    exact ⟨⟨l, hl, hvis⟩, hadd⟩
  | searchInput t =>
    simp only [uiStep, handleSearchInput, updateDisplayedNotes, hl,
      Option.map_some', Option.some.injEq] at hstep
    subst hstep
    exact ⟨⟨l, hl, hvis⟩, hadd⟩
  | addClick =>
    rw [uiStep] at hstep
    cases hd : st.addDisabled with
    | true =>
      rw [handleAddClick_disabled st hd, Option.some.injEq] at hstep
      subst hstep
      exact ⟨⟨l, hl, hvis⟩, hadd⟩
    | false =>
      rw [handleAddClick_enabled st l hl hd, Option.some.injEq] at hstep
      subst hstep
      constructor
      · exact ⟨_, getNotes_saveNotes (l ++ [Note.make (freshUuid st.nextUuid)
          (if jsTrim st.titleInput = "" then "Untitled" else jsTrim st.titleInput)
          st.contentInput st.colorSel]) st.storage, rfl⟩
      · show true = ((jsTrim "").data.length == 0)
        decide
  | deleteNoteLinkClick u resp =>
    rw [uiStep] at hstep
    cases resp with
    | false =>
      rw [handleDeleteNoteLink_decline, Option.some.injEq] at hstep
      subst hstep
      exact ⟨⟨l, hl, hvis⟩, hadd⟩
    | true =>
      rw [handleDeleteNoteLink_accept st u l hl, Option.some.injEq] at hstep
      subst hstep
      exact ⟨⟨_, getNotes_saveNotes (l.filter (fun n => n.uuid != u)) st.storage,
        rfl⟩, hadd⟩
  | deleteAllClick resp =>
    rw [uiStep] at hstep
    cases resp with
    | false =>
      rw [handleDeleteAllClick_decline, Option.some.injEq] at hstep
      subst hstep
      exact ⟨⟨l, hl, hvis⟩, hadd⟩
    | true =>
      rw [handleDeleteAllClick_accept st, Option.some.injEq] at hstep
      subst hstep
      exact ⟨⟨[], getNotes_saveNotes [] st.storage, rfl⟩, hadd⟩

theorem uiInit_inv (s0 : Storage) (st : UIState) (h : uiInit s0 = some st) :
    UIInv st := by
  cases hg : getNotes s0 with
  | none =>
    rw [uiInit, updateDisplayedNotes, hg] at h
    simp at h
  | some l =>
    rw [uiInit_eq s0 l hg, Option.some.injEq] at h
    subst h
    refine ⟨⟨l, hg, rfl⟩, ?_⟩
    show true = ((jsTrim "").data.length == 0)
    decide

theorem runUI_inv (evts : List UIEvent) :
    ∀ (o : Option UIState), (∀ st, o = some st → UIInv st) →
      ∀ st1, runUI o evts = some st1 → UIInv st1 := by
  induction evts with
  | nil =>
    intro o ho st1 h
    exact ho st1 h
  | cons e rest ih =>
    intro o ho st1 h
    rw [runUI] at h
    apply ih _ _ st1 h
    intro st2 h2
    cases o with
    | none => simp at h2
    | some st0 =>
      rw [Option.some_bind] at h2
      exact uiStep_inv st0 st2 e (ho st0 rfl) h2

/-- C9: after the initial load of the part_000 page and after every
subsequent event (in particular every mutation), the delete-all button
is visible exactly when the stored collection is non-empty. -/
theorem c9_delete_all_visibility (s0 : Storage) (evts : List UIEvent)
    (st : UIState) (h : runUI (uiInit s0) evts = some st) :
    ∃ l, getNotes st.storage = some l ∧
      (st.deleteAllVisible = true ↔ l ≠ []) := by
  have hinv := runUI_inv evts (uiInit s0)
    (fun st2 h2 => uiInit_inv s0 st2 h2) st h
  obtain ⟨⟨l, hl, hvis⟩, _⟩ := hinv
  refine ⟨l, hl, ?_⟩
  rw [hvis]
  cases l <;> simp

set_option maxRecDepth 1000000 in
/-- Witness for C9: a content edit followed by an add click starting
from the empty store; the delete-all button becomes visible. -/
theorem c9_delete_all_visibility_witness :
    ∃ l, getNotes (UIState.mk
        (saveNotes [Note.make "0" "Untitled" "milk" "white"] emptyStorage)
        "" "" "" "white" true true
        (DisplayedNotes.cards [Note.make "0" "Untitled" "milk" "white"]) 1).storage
      = some l ∧
      ((UIState.mk
        (saveNotes [Note.make "0" "Untitled" "milk" "white"] emptyStorage)
        "" "" "" "white" true true
        (DisplayedNotes.cards [Note.make "0" "Untitled" "milk" "white"]) 1).deleteAllVisible
        = true ↔ l ≠ []) :=
  c9_delete_all_visibility emptyStorage
    [UIEvent.contentInput "milk", UIEvent.addClick] _ (by decide)

/-- C4: from any reachable state of the part_000 page, a click on the
add control is a no-op when the trimmed content is empty (the control
is disabled then, so the click never reaches the handler); otherwise it
appends exactly one new note, whose title falls back to the fixed
placeholder Untitled when the trimmed title is empty, and clears the
content input. -/
theorem c4_add_rejects_blank_content (s0 : Storage) (evts : List UIEvent)
    (st : UIState) (h : runUI (uiInit s0) evts = some st)
    (l : List Note) (hl : getNotes st.storage = some l) :
    (jsTrim st.contentInput = "" → uiStep st UIEvent.addClick = some st) ∧
    (jsTrim st.contentInput ≠ "" →
      ∃ st1, uiStep st UIEvent.addClick = some st1 ∧
        getNotes st1.storage = some (l ++ [Note.make (freshUuid st.nextUuid)
          (if jsTrim st.titleInput = "" then "Untitled" else jsTrim st.titleInput)
          st.contentInput st.colorSel]) ∧
        st1.contentInput = "") := by
  have hinv := runUI_inv evts (uiInit s0)
    (fun st2 h2 => uiInit_inv s0 st2 h2) st h
  obtain ⟨-, hadd⟩ := hinv
  constructor
  · intro hc
    have hdata : (jsTrim st.contentInput).data = [] := by rw [hc]
    have hd : st.addDisabled = true := by
      rw [hadd, hdata]
      rfl
    rw [uiStep, handleAddClick_disabled st hd]
  · intro hc
    have hdata : (jsTrim st.contentInput).data ≠ [] := by
      intro hnil
      exact hc (String.ext hnil)
    have hd : st.addDisabled = false := by
      rw [hadd]
      cases hlen : (jsTrim st.contentInput).data with
      | nil => exact absurd hlen hdata
      | cons a as => rfl
    refine ⟨{ st with
        addDisabled := true,
        storage := saveNotes (l ++ [Note.make (freshUuid st.nextUuid)
          (if jsTrim st.titleInput = "" then "Untitled" else jsTrim st.titleInput)
          st.contentInput st.colorSel]) st.storage,
        contentInput := "",
        display := renderList st.searchText (l ++ [Note.make (freshUuid st.nextUuid)
          (if jsTrim st.titleInput = "" then "Untitled" else jsTrim st.titleInput)
          st.contentInput st.colorSel]),
        deleteAllVisible := !((l ++ [Note.make (freshUuid st.nextUuid)
          (if jsTrim st.titleInput = "" then "Untitled" else jsTrim st.titleInput)
          st.contentInput st.colorSel]).length == 0),
        nextUuid := st.nextUuid + 1 }, ?_, ?_, rfl⟩
    · rw [uiStep]
      exact handleAddClick_enabled st l hl hd
    · exact getNotes_saveNotes _ st.storage

set_option maxRecDepth 1000000 in
/-- Witness for C4: after typing milk into the content area of a fresh
page, the trimmed content is non-empty and the add click appends the
note with the Untitled fallback title and clears the content area. -/
theorem c4_add_rejects_blank_content_witness :
    jsTrim (UIState.mk emptyStorage "" "" "milk" "white" false false
        DisplayedNotes.placeholder 0).contentInput ≠ "" ∧
    ∃ st1, uiStep (UIState.mk emptyStorage "" "" "milk" "white" false false
        DisplayedNotes.placeholder 0) UIEvent.addClick = some st1 ∧
      getNotes st1.storage = some ([] ++ [Note.make (freshUuid 0)
        (if jsTrim "" = "" then "Untitled" else jsTrim "")
        "milk" "white"]) ∧
      st1.contentInput = "" :=
  ⟨by decide,
   (c4_add_rejects_blank_content emptyStorage [UIEvent.contentInput "milk"]
      (UIState.mk emptyStorage "" "" "milk" "white" false false
        DisplayedNotes.placeholder 0) (by decide) [] (by decide)).2 (by decide)⟩

set_option maxRecDepth 1000000 in
/-- C6 as stated is false on the code: in app.js the per-note delete
button calls deleteNote directly, so on a one-note store the
interaction trace is empty (no confirmation prompt of any kind) yet the
collection is mutated from one note to none; and in part_000 a declined
delete-all confirmation leaves only the confirm event in the trace, with
no acknowledgment message. -/
theorem c6_counterexample :
    appJsDeleteOneAction "u-1"
        (saveNotes [Note.make "u-1" "A" "a" "white"] emptyStorage)
      = some (saveNotes [] (saveNotes [Note.make "u-1" "A" "a" "white"] emptyStorage),
          []) ∧
    getNotes (saveNotes [Note.make "u-1" "A" "a" "white"] emptyStorage)
      = some [Note.make "u-1" "A" "a" "white"] ∧
    getNotes (saveNotes [] (saveNotes [Note.make "u-1" "A" "a" "white"] emptyStorage))
      = some [] ∧
    part000DeleteAllAction false
        (saveNotes [Note.make "u-1" "A" "a" "white"] emptyStorage)
      = (saveNotes [Note.make "u-1" "A" "a" "white"] emptyStorage,
         [UAEvent.confirmAsked "Are you sure you want to delete all your notes?"]) := by
  decide

/-- C6 amended: in part_000 both destructive actions first ask for
confirmation through a synchronous confirm dialog and a declined
confirmation causes no mutation (but no acknowledgment message); in
app.js the delete-all action first asks through a synchronous prompt
and any response other than the exact text delete causes no mutation
and is acknowledged with an alert, while the app.js single-note delete
runs with an empty interaction trace, i.e. without any confirmation. -/
theorem c6_amended_confirmations (u : String) (s : Storage)
    (resp : Option String) (hresp : resp ≠ some "delete") :
    part000DeleteOneAction false u s
      = some (s, [UAEvent.confirmAsked "Are you sure you want to delete this note?"]) ∧
    part000DeleteAllAction false s
      = (s, [UAEvent.confirmAsked "Are you sure you want to delete all your notes?"]) ∧
    appJsDeleteAllAction resp s
      = (s, [UAEvent.promptAsked
          "Alert! You are about to remove all your notes. Type in \"delete\" to confirm.",
         UAEvent.alerted "Couldn\x27t proceed. WARNING: case-sensitive"]) ∧
    (∀ r, appJsDeleteOneAction u s = some r → r.2 = []) := by
  refine ⟨rfl, rfl, ?_, ?_⟩
  · rw [appJsDeleteAllAction, if_neg hresp]
  · intro r hr
    rw [appJsDeleteOneAction] at hr
    cases hg : deleteNote u s with
    | none => rw [hg] at hr; simp at hr
    | some s1 =>
      rw [hg, Option.map_some', Option.some.injEq] at hr
      rw [← hr]

set_option maxRecDepth 1000000 in
/-- Witness for the amended C6 at a concrete store and a cancelled
prompt. -/
theorem c6_amended_confirmations_witness :
    part000DeleteOneAction false "u-1" emptyStorage
      = some (emptyStorage,
          [UAEvent.confirmAsked "Are you sure you want to delete this note?"]) ∧
    part000DeleteAllAction false emptyStorage
      = (emptyStorage,
         [UAEvent.confirmAsked "Are you sure you want to delete all your notes?"]) ∧
    appJsDeleteAllAction none emptyStorage
      = (emptyStorage, [UAEvent.promptAsked
          "Alert! You are about to remove all your notes. Type in \"delete\" to confirm.",
         UAEvent.alerted "Couldn\x27t proceed. WARNING: case-sensitive"]) ∧
    (∀ r, appJsDeleteOneAction "u-1" emptyStorage = some r → r.2 = []) :=
  c6_amended_confirmations "u-1" emptyStorage none (by decide)

end MagicNotes
